import Mathlib

set_option maxRecDepth 8000

/-!
Verification of the crawl-and-index pipeline of `whisprer/fin`.

This file shallowly embeds the Rust sources of the repository's search core
(`prime_hilbert.rs`, `tokenizer.rs`, `entropy.rs`, `quantum_types.rs`,
`engine.rs`, `crawler.rs`) into Lean.  `f64` values are modelled as real
numbers, `u64`/`usize` as naturals (with truncating subtraction where the
code subtracts unsigned integers), Rust `HashMap`s keyed by primes as
association lists in first-insertion order, and fallible operations as
`Except`.  Theorems at the end settle the specification claims.
-/

namespace RSearch

/-- Sparse vector: keys are prime token ids, values are weights.
Models `PrimeVector = HashMap<u64, f64>` from `prime_hilbert.rs`. -/
abbrev PrimeVector := List (ℕ × ℝ)

/-- Weight of key `k` in a sparse vector (0 when absent), modelling
`vec.get(key).unwrap_or(&0.0)`. -/
noncomputable def weight (v : PrimeVector) (k : ℕ) : ℝ :=
  (v.lookup k).getD 0

/-- The L2 norm of the occurrence counts of `primes`, as computed in
`build_vector` (`prime_hilbert.rs` line 34): `sqrt (Σ c²)` over the
distinct primes. -/
noncomputable def counts_norm (primes : List ℕ) : ℝ :=
  Real.sqrt ((primes.dedup.map (fun p => ((primes.count p : ℝ)) ^ 2)).sum)

/-- `build_vector` (`prime_hilbert.rs` lines 22-45): counts occurrences of
each prime, then divides each count by the L2 norm of the counts; an empty
input (or a zero norm) yields the empty vector. -/
noncomputable def build_vector (primes : List ℕ) : PrimeVector :=
  if primes = [] then []
  else if 0 < counts_norm primes then
    primes.dedup.map (fun p => (p, (primes.count p : ℝ) / counts_norm primes))
  else []

/-- `dot_product` (`prime_hilbert.rs` lines 120-135): sum of products of
weights over the union of the key sets. -/
noncomputable def dot_product (v1 v2 : PrimeVector) : ℝ :=
  (((v1.map Prod.fst) ++ (v2.map Prod.fst)).dedup.map
    (fun k => weight v1 k * weight v2 k)).sum

/-- `to_dense_vector` (`prime_hilbert.rs` lines 48-58): projects a sparse
vector into a dense array of length `dimension`, dropping keys `≥ dimension`. -/
noncomputable def to_dense_vector (v : PrimeVector) (dimension : ℕ) : List ℝ :=
  (List.range dimension).map (fun i => weight v i)

/-- Biorthogonal pair of sparse vectors (`prime_hilbert.rs` lines 13-16). -/
structure BiorthogonalVector where
  left : PrimeVector
  right : PrimeVector

/-- `build_biorthogonal_vector` (`prime_hilbert.rs` lines 89-113): the left
vector is `build_vector`; the right vector perturbs each weight by
`1 + 0.1·(prime mod 2)` and is renormalized when its norm is positive. -/
noncomputable def build_biorthogonal_vector (primes : List ℕ) : BiorthogonalVector :=
  let base := build_vector primes
  let right0 : PrimeVector :=
    base.map (fun pv => (pv.1, pv.2 * (1 + 0.1 * ((pv.1 % 2 : ℕ) : ℝ))))
  let norm := Real.sqrt ((right0.map (fun pv => pv.2 ^ 2)).sum)
  { left := base
    right := if 0 < norm then right0.map (fun pv => (pv.1, pv.2 / norm)) else right0 }

/-- `biorthogonal_score` (`prime_hilbert.rs` lines 138-140). -/
noncomputable def biorthogonal_score (query doc : BiorthogonalVector) : ℝ :=
  dot_product query.left doc.right + dot_product query.right doc.left

/-- `resonance_complex` (`prime_hilbert.rs` lines 143-148): real part is the
dot product, imaginary part is the supplied decay factor. -/
noncomputable def resonance_complex (v1 v2 : PrimeVector) (decay_factor : ℝ) : ℂ :=
  ⟨dot_product v1 v2, decay_factor⟩

/-- `shannon_entropy` (`entropy.rs` lines 16-37): `-Σ p·log2 p` over the
empirical distribution of the tokens; 0 for empty input. -/
noncomputable def shannon_entropy (primes : List ℕ) : ℝ :=
  if primes = [] then 0
  else
    -(primes.dedup.map (fun p =>
        let pr := (primes.count p : ℝ) / (primes.length : ℝ)
        pr * Real.logb 2 pr)).sum

/-- One summand of the entropy sums in `mutual_information`
(`quantum_types.rs` lines 50-63): contributes `-x·log2 x` when `x > 0`. -/
noncomputable def entropy_term (x : ℝ) : ℝ :=
  if 0 < x then -(x * Real.logb 2 x) else 0

/-- `mutual_information` (`quantum_types.rs` lines 38-67): 0 when the lengths
differ; otherwise `H(p1) + H(p2) - Hjoint` where the joint entropy uses the
pointwise products. -/
noncomputable def mutual_information (p1 p2 : List ℝ) : ℝ :=
  if p1.length ≠ p2.length then 0
  else (p1.map entropy_term).sum + (p2.map entropy_term).sum
        - ((p1.zip p2).map (fun q => entropy_term (q.1 * q.2))).sum

/-- `calculate_reversibility` (`entropy.rs` lines 51-59): mean mutual
information against the historical vectors; 1 when the history is empty. -/
noncomputable def calculate_reversibility (doc_vector : List ℝ)
    (historical_vectors : List (List ℝ)) : ℝ :=
  if historical_vectors = [] then 1
  else ((historical_vectors.map (fun past => mutual_information doc_vector past)).sum)
        / (historical_vectors.length : ℝ)

/-- `entropy_pressure` (`entropy.rs` lines 62-64). -/
noncomputable def entropy_pressure (doc_age update_frequency trend_decay : ℝ) : ℝ :=
  update_frequency * trend_decay * Real.exp doc_age

/-- `calculate_redundancy` (`quantum_types.rs` lines 70-86): proportion of
elements that are duplicates; values are compared after rounding to six
decimal places (the `format!` with precision 6 in the source is modelled by
rounding `x·10⁶` to the nearest integer). -/
noncomputable def calculate_redundancy (v : List ℝ) : ℝ :=
  if v.length ≤ 1 then 0
  else 1 - (((v.map (fun x => round (x * 1000000))).dedup.length : ℝ) / (v.length : ℝ))

/-- `calculate_symmetry` (`quantum_types.rs` lines 89-113): normalized
mirror-similarity around the midpoint; 1 for length ≤ 1. -/
noncomputable def calculate_symmetry (v : List ℝ) : ℝ :=
  if v.length ≤ 1 then 1
  else
    let n := v.length
    let half := n / 2
    (((List.range half).map (fun i =>
        let a := v.getD i 0
        let b := v.getD (n - 1 - i) 0
        if 0 < max a b then 1 - |a - b| / max a b else 1)).sum) / (half : ℝ)

/-- `buffering_capacity` (`entropy.rs` lines 67-71). -/
noncomputable def buffering_capacity (doc_vector : List ℝ) : ℝ :=
  calculate_redundancy doc_vector + calculate_symmetry doc_vector

/-- `persistence_score` (`entropy.rs` lines 79-89): 0 when `buffering ≤ 0`,
else `exp((-fragility)·(1-reversibility)·(pressure/buffering))`. -/
noncomputable def persistence_score (reversibility entropyPressure buffering fragility : ℝ) : ℝ :=
  if buffering ≤ 0 then 0
  else Real.exp ((-fragility) * (1 - reversibility) * (entropyPressure / buffering))

lemma counts_norm_sq (primes : List ℕ) :
    counts_norm primes ^ 2
      = ((primes.dedup.map (fun p => ((primes.count p : ℝ)) ^ 2)).sum) := by
  apply Real.sq_sqrt
  apply List.sum_nonneg
  intro x hx
  obtain ⟨p, _, rfl⟩ := List.mem_map.mp hx
  positivity

lemma counts_norm_pos (primes : List ℕ) (h : primes ≠ []) :
    0 < counts_norm primes := by
  have hd : primes.dedup ≠ [] := by
    simpa [List.dedup_eq_nil] using h
  obtain ⟨p, hp⟩ := List.exists_mem_of_ne_nil _ hd
  have hc : 1 ≤ primes.count p := by
    have : p ∈ primes := List.mem_dedup.mp hp
    exact List.count_pos_iff.mpr this
  have hterm : (1 : ℝ) ≤ ((primes.count p : ℝ)) ^ 2 := by
    have : (1 : ℝ) ≤ (primes.count p : ℝ) := by exact_mod_cast hc
    nlinarith
  have hsum : (1 : ℝ) ≤ (primes.dedup.map (fun p => ((primes.count p : ℝ)) ^ 2)).sum := by
    calc (1 : ℝ) ≤ ((primes.count p : ℝ)) ^ 2 := hterm
    _ ≤ _ := by
        apply List.single_le_sum
        · intro x hx
          obtain ⟨q, _, rfl⟩ := List.mem_map.mp hx
          positivity
        · exact List.mem_map.mpr ⟨p, hp, rfl⟩
  unfold counts_norm
  rw [Real.sqrt_pos]
  linarith

lemma sum_sq_build_vector (primes : List ℕ) (h : primes ≠ []) :
    ((build_vector primes).map (fun pv => pv.2 ^ 2)).sum = 1 := by
  have hpos := counts_norm_pos primes h
  have hne : counts_norm primes ≠ 0 := ne_of_gt hpos
  unfold build_vector
  rw [if_neg h, if_pos hpos]
  rw [List.map_map]
  have heq :
      ((fun pv : ℕ × ℝ => pv.2 ^ 2) ∘ fun p => (p, (primes.count p : ℝ) / counts_norm primes))
        = fun p => ((primes.count p : ℝ)) ^ 2 * (counts_norm primes ^ 2)⁻¹ := by
    funext p
    simp [Function.comp, div_pow]
    ring
  rw [heq, List.sum_map_mul_right, counts_norm_sq]
  rw [← counts_norm_sq]
  field_simp

/-- Tokenizer state (`tokenizer.rs` lines 8-27): the vocabulary
`token_to_prime` is kept in first-seen (insertion) order, together with the
last-assigned-prime cursor `current_prime` (initialised to 2).  The mirror
map `prime_to_token` and the word regex are omitted: the claims are about the
assignment of primes to already-split word tokens, so `tokenize` below takes
the list of words produced by the case-insensitive `\b\w+\b` split. -/
structure PrimeTokenizer where
  token_to_prime : List (String × ℕ)
  current_prime : ℕ

/-- `PrimeTokenizer::new` (`tokenizer.rs` lines 18-27). -/
def PrimeTokenizer.new : PrimeTokenizer := ⟨[], 2⟩

/-- Bounded scan for the first prime at or above `k`, standing in for the
`primal::Primes::all()` iterator of the source; the fuel is chosen large
enough (Bertrand) that the scan always finds a prime, see
`next_prime_spec`. -/
def next_prime_from (fuel k : ℕ) : ℕ :=
  match fuel with
  | 0 => k
  | f + 1 => if Nat.Prime k then k else next_prime_from f (k + 1)

/-- The smallest prime strictly greater than `n`: models
`primal_generator.find(|&p| p > self.current_prime)` (`tokenizer.rs`
lines 39-43). -/
def next_prime (n : ℕ) : ℕ := next_prime_from (n + 2) (n + 1)

/-- Processing of one word inside the loop of `tokenize` (`tokenizer.rs`
lines 34-53): a known token returns its prime and leaves the state
untouched; an unseen token is assigned the next prime after the cursor, is
appended to the vocabulary, and the cursor advances to that prime. -/
def tokenize_word (tk : PrimeTokenizer) (token : String) : ℕ × PrimeTokenizer :=
  match tk.token_to_prime.lookup token with
  | some p => (p, tk)
  | none =>
      let next_p := next_prime tk.current_prime
      (next_p, ⟨tk.token_to_prime ++ [(token, next_p)], next_p⟩)

/-- `PrimeTokenizer::tokenize` (`tokenizer.rs` lines 30-56) over an
already-split word list: emits one prime per word, threading the state. -/
def tokenize (tk : PrimeTokenizer) (words : List String) : List ℕ × PrimeTokenizer :=
  match words with
  | [] => ([], tk)
  | w :: ws =>
      let r := tokenize_word tk w
      let rest := tokenize r.2 ws
      (r.1 :: rest.1, rest.2)

/-- `tokenize_without_update` (`tokenizer.rs` lines 60-63): identity on prime
lists. -/
def tokenize_without_update (_tk : PrimeTokenizer) (primes : List ℕ) : List ℕ :=
  primes

/-- Sequential tokenization of several texts, each given as its word list. -/
def tokenize_texts (tk : PrimeTokenizer) (texts : List (List String)) : PrimeTokenizer :=
  texts.foldl (fun s t => (tokenize s t).2) tk

/-- Vocabulary invariant: primes strictly increase in first-seen order, all
are at most the cursor, and tokens are distinct. -/
def TokenizerWF (tk : PrimeTokenizer) : Prop :=
  List.Chain' (· < ·) (tk.token_to_prime.map Prod.snd)
  ∧ (∀ q ∈ tk.token_to_prime.map Prod.snd, q ≤ tk.current_prime)
  ∧ (tk.token_to_prime.map Prod.fst).Nodup

lemma le_next_prime_from (fuel k : ℕ) : k ≤ next_prime_from fuel k := by
  induction fuel generalizing k with
  | zero => simp [next_prime_from]
  | succ f ih =>
      unfold next_prime_from
      split
      · exact le_rfl
      · exact le_trans (Nat.le_succ k) (ih (k + 1))

lemma lt_next_prime (n : ℕ) : n < next_prime n :=
  lt_of_lt_of_le (Nat.lt_succ_self n) (le_next_prime_from (n + 2) (n + 1))

lemma next_prime_from_spec (fuel k p : ℕ) (hp : p.Prime) (hk : k ≤ p)
    (hfuel : p < k + fuel) :
    (next_prime_from fuel k).Prime ∧
      ∀ q, q.Prime → k ≤ q → next_prime_from fuel k ≤ q := by
  induction fuel generalizing k with
  | zero => omega
  | succ f ih =>
      unfold next_prime_from
      split
      · exact ⟨by assumption, fun q _ hq => hq⟩
      · have hkp : k ≠ p := by
          intro h; subst h; simp_all
        have h1 : k + 1 ≤ p := by omega
        have h2 : p < (k + 1) + f := by omega
        obtain ⟨hpr, hmin⟩ := ih (k + 1) h1 h2
        refine ⟨hpr, fun q hq hkq => ?_⟩
        have : k ≠ q := by
          intro h; subst h; simp_all
        exact hmin q hq (by omega)

/-- The bounded scan in `next_prime` is faithful to the source: for a
positive cursor it returns a prime, strictly above the cursor, and no prime
above the cursor is smaller (Bertrand's postulate supplies the fuel bound). -/
theorem next_prime_spec (n : ℕ) (h : 1 ≤ n) :
    (next_prime n).Prime ∧ n < next_prime n ∧
      ∀ q, q.Prime → n < q → next_prime n ≤ q := by
  obtain ⟨p, hp, hnp, hp2⟩ := Nat.bertrand n (by omega)
  have hspec := next_prime_from_spec (n + 2) (n + 1) p hp (by omega) (by omega)
  exact ⟨hspec.1, lt_next_prime n, fun q hq hnq => hspec.2 q hq (by omega)⟩

lemma lookup_eq_some_of_mem {l : List (String × ℕ)}
    (hnd : (l.map Prod.fst).Nodup) {t : String} {p : ℕ} (h : (t, p) ∈ l) :
    l.lookup t = some p := by
  induction l with
  | nil => simp at h
  | cons a tl ih =>
      simp only [List.map_cons, List.nodup_cons] at hnd
      rcases List.mem_cons.mp h with heq | htl
      · subst heq
        simp [List.lookup]
      · have hne : t ≠ a.1 := by
          intro h'
          exact hnd.1 (h' ▸ List.mem_map.mpr ⟨(t, p), htl, rfl⟩)
        have : (t == a.1) = false := beq_false_of_ne hne
        simp [List.lookup, this, ih hnd.2 htl]

lemma tokenize_word_WF {tk : PrimeTokenizer} (h : TokenizerWF tk) (w : String) :
    TokenizerWF (tokenize_word tk w).2 := by
  obtain ⟨hch, hle, hnd⟩ := h
  cases hlk : tk.token_to_prime.lookup w with
  | some p =>
      simp only [tokenize_word, hlk]
      exact ⟨hch, hle, hnd⟩
  | none =>
      simp only [tokenize_word, hlk]
      have hgt : tk.current_prime < next_prime tk.current_prime := lt_next_prime _
      refine ⟨?_, ?_, ?_⟩
      · simp only [List.map_append]
        rw [List.chain'_append]
        refine ⟨hch, List.chain'_singleton _, ?_⟩
        intro x hx y hy
        simp only [List.map_cons, List.map_nil, List.head?_cons,
          Option.mem_def, Option.some.injEq] at hy
        have hxmem : x ∈ tk.token_to_prime.map Prod.snd :=
          List.mem_of_mem_getLast? hx
        have := lt_of_le_of_lt (hle x hxmem) hgt
        omega
      · intro q hq
        simp only [List.map_append, List.map_cons, List.map_nil,
          List.mem_append, List.mem_singleton] at hq
        show q ≤ next_prime tk.current_prime
        rcases hq with hq | hq
        · exact le_trans (hle q hq) (le_of_lt hgt)
        · omega
      · simp only [List.map_append]
        rw [List.nodup_append]
        refine ⟨hnd, by simp, ?_⟩
        intro x hx
        simp only [List.map_cons, List.map_nil, List.mem_singleton]
        intro hxw
        subst hxw
        obtain ⟨⟨t', p'⟩, hmem, ht'⟩ := List.mem_map.mp hx
        simp only at ht'
        subst ht'
        have := lookup_eq_some_of_mem hnd hmem
        rw [hlk] at this
        exact Option.noConfusion this

lemma tokenize_WF {tk : PrimeTokenizer} (h : TokenizerWF tk) (ws : List String) :
    TokenizerWF (tokenize tk ws).2 := by
  induction ws generalizing tk with
  | nil => exact h
  | cons w ws ih => exact ih (tokenize_word_WF h w)

lemma tokenize_texts_WF {tk : PrimeTokenizer} (h : TokenizerWF tk)
    (texts : List (List String)) : TokenizerWF (tokenize_texts tk texts) := by
  induction texts generalizing tk with
  | nil => exact h
  | cons t ts ih => exact ih (tokenize_WF h t)

lemma TokenizerWF_new : TokenizerWF PrimeTokenizer.new := by
  refine ⟨?_, ?_, ?_⟩ <;> simp [PrimeTokenizer.new]

/-- A processed document in the engine's index (`engine.rs` lines 20-33).
The `compressed_text` buffer is omitted: compression is a memory
optimisation that is transparent to every claimed behaviour, so `text`
always holds the (possibly empty) plain text. -/
structure IndexedDocument where
  title : String
  text : String
  vector : PrimeVector
  biorthogonal : BiorthogonalVector
  entropy : ℝ
  path : String
  timestamp : ℕ
  reversibility : ℝ
  buffering : ℝ
  historical_vectors : List (List ℝ)

/-- A search result with scoring details (`engine.rs` lines 75-84). -/
structure SearchResult where
  title : String
  resonance : ℝ
  delta_entropy : ℝ
  score : ℝ
  quantum_score : ℝ
  persistence_score : ℝ
  snippet : String
  path : String

/-- The engine state (`engine.rs` lines 87-96). -/
structure ResonantEngine where
  tokenizer : PrimeTokenizer
  docs : List IndexedDocument
  entropy_weight : ℝ
  fragility : ℝ
  trend_decay : ℝ
  use_quantum_score : Bool
  use_persistence_score : Bool

/-- `ResonantEngine::new` (`engine.rs` lines 222-232). -/
noncomputable def ResonantEngine.new : ResonantEngine :=
  { tokenizer := PrimeTokenizer.new
    docs := []
    entropy_weight := 0.1
    fragility := 0.2
    trend_decay := 0.05
    use_quantum_score := true
    use_persistence_score := true }

/-- `update_document_relationships` (`engine.rs` lines 394-422): for every
document, recompute reversibility against the dense vectors of all other
documents and append the current dense vector to the history when it holds
fewer than 5 entries; documents with no peers are left unchanged. -/
noncomputable def update_document_relationships
    (docs : List IndexedDocument) : List IndexedDocument :=
  let all_vectors := docs.map (fun d => to_dense_vector d.vector 1000)
  docs.mapIdx (fun i doc =>
    let others_vectors :=
      (all_vectors.enum.filter (fun x => x.1 ≠ i)).map Prod.snd
    if others_vectors ≠ [] then
      let current_vec := all_vectors.getD i []
      { doc with
        reversibility := calculate_reversibility current_vec others_vectors
        historical_vectors :=
          if doc.historical_vectors.length < 5 then
            doc.historical_vectors ++ [current_vec]
          else doc.historical_vectors }
    else doc)

/-- The per-document body of the scoring loop in `search` (`engine.rs`
lines 498-572): standard resonance score, optional quantum-inspired score,
optional persistence score, and the snippet. -/
noncomputable def mk_search_result (e : ResonantEngine) (query_vec : PrimeVector)
    (query_entropy : ℝ) (now : ℕ) (doc : IndexedDocument) : SearchResult :=
  let resonance := dot_product query_vec doc.vector
  let delta_entropy := |doc.entropy - query_entropy|
  let standard_score := resonance - delta_entropy * e.entropy_weight
  let quantum_score :=
    if e.use_quantum_score then
      let doc_age := ((now - doc.timestamp : ℕ) : ℝ) / (24 * 3600)
      let decay_factor := 0.01 * min doc_age 100
      let complex_res := resonance_complex query_vec doc.vector decay_factor
      let query_bio := build_biorthogonal_vector
        (tokenize_without_update e.tokenizer (query_vec.map Prod.fst))
      let bio_score := biorthogonal_score query_bio doc.biorthogonal
      complex_res.re * 0.6 + |complex_res.im| * 0.2 + bio_score * 0.2
    else 0
  let persistence :=
    if e.use_persistence_score then
      let doc_age := ((now - doc.timestamp : ℕ) : ℝ) / (24 * 3600)
      let update_frequency := (0.1 : ℝ)
      let persistence0 := persistence_score doc.reversibility
        (entropy_pressure doc_age update_frequency e.trend_decay)
        doc.buffering e.fragility
      let entropy_delta := |doc.entropy - query_entropy|
      let entropy_factor := Real.exp (-entropy_delta * e.entropy_weight)
      persistence0 * entropy_factor
    else 0
  { title := doc.title
    resonance := resonance
    delta_entropy := delta_entropy
    score := standard_score
    quantum_score := quantum_score
    persistence_score := persistence
    snippet := ((doc.text.take 200).trim.replace "\n" " ") ++ "..."
    path := doc.path }

/-- The combined score used by the sort comparator of `search` (`engine.rs`
lines 575-597). -/
noncomputable def combined_score (use_quantum use_persistence : Bool)
    (r : SearchResult) : ℝ :=
  if use_quantum && use_persistence then
    r.score * 0.5 + r.quantum_score * 0.25 + r.persistence_score * 0.25
  else if use_quantum then
    r.score * 0.7 + r.quantum_score * 0.3
  else if use_persistence then
    r.score * 0.7 + r.persistence_score * 0.3
  else r.score

/-- The full per-document result list of a search, before sorting and
truncation (the loop of `engine.rs` lines 495-572). -/
noncomputable def search_results (e : ResonantEngine) (query_words : List String)
    (now : ℕ) : List SearchResult :=
  let docs' := update_document_relationships e.docs
  let tq := tokenize e.tokenizer query_words
  let e' := { e with docs := docs', tokenizer := tq.2 }
  docs'.map (mk_search_result e' (build_vector tq.1) (shannon_entropy tq.1) now)

/-- `search` (`engine.rs` lines 482-600): updates document relationships
first, then tokenizes the query (mutating the tokenizer); an empty token
sequence returns no results; otherwise every document is scored, results are
sorted stably in descending combined-score order (ties treated as equal,
matching `partial_cmp(..).unwrap_or(Equal)`), and the first `top_k` are
returned.  The query string is supplied as its regex word split. -/
noncomputable def search (e : ResonantEngine) (query_words : List String)
    (top_k : ℕ) (now : ℕ) : List SearchResult × ResonantEngine :=
  let docs' := update_document_relationships e.docs
  let tq := tokenize e.tokenizer query_words
  let e' := { e with docs := docs', tokenizer := tq.2 }
  if tq.1 = [] then ([], e')
  else
    let query_vec := build_vector tq.1
    let query_entropy := shannon_entropy tq.1
    let results := docs'.map (mk_search_result e' query_vec query_entropy now)
    let sorted := results.mergeSort (fun a b =>
      decide (combined_score e.use_quantum_score e.use_persistence_score b
        ≤ combined_score e.use_quantum_score e.use_persistence_score a))
    (sorted.take top_k, e')

/-- The per-document body of `apply_quantum_jump` (`engine.rs`
lines 627-666): documents whose resonance with the query exceeds 0.1 get a
history push (evicting the oldest entry at capacity 5), a reversibility
blend, and a timestamp freshening when more than one day stale. -/
noncomputable def quantum_jump_doc (query_vec : PrimeVector) (importance : ℝ)
    (now : ℕ) (doc : IndexedDocument) : IndexedDocument :=
  let doc_dense := to_dense_vector doc.vector 100
  let query_dense := to_dense_vector query_vec 100
  if doc_dense = [] ∨ query_dense = [] then doc
  else
    let resonance := dot_product query_vec doc.vector
    if 0.1 < resonance then
      let current_vec := to_dense_vector doc.vector 1000
      let hist :=
        if doc.historical_vectors.length < 5 then
          doc.historical_vectors ++ [current_vec]
        else if doc.historical_vectors ≠ [] then
          doc.historical_vectors.drop 1 ++ [current_vec]
        else doc.historical_vectors
      let rev := doc.reversibility * 0.9 + 0.1 * (resonance * importance)
      let ts :=
        if 24 * 3600 < now - doc.timestamp
        then now - (now - doc.timestamp) / 2
        else doc.timestamp
      { doc with
        historical_vectors := hist
        reversibility := rev
        timestamp := ts }
    else doc

/-- `apply_quantum_jump` (`engine.rs` lines 618-667): tokenizes the query
(mutating the tokenizer), returns unchanged documents on an empty token
sequence, and otherwise updates every resonant document. -/
noncomputable def apply_quantum_jump (e : ResonantEngine)
    (query_words : List String) (importance : ℝ) (now : ℕ) : ResonantEngine :=
  let tq := tokenize e.tokenizer query_words
  let e' := { e with tokenizer := tq.2 }
  if tq.1 = [] then e'
  else
    let query_vec := build_vector tq.1
    { e' with docs := e'.docs.map (quantum_jump_doc query_vec importance now) }

lemma weight_nil (k : ℕ) : weight [] k = 0 := rfl

lemma dot_product_nil_left (v : PrimeVector) : dot_product [] v = 0 := by
  unfold dot_product
  apply List.sum_eq_zero
  intro x hx
  obtain ⟨k, _, rfl⟩ := List.mem_map.mp hx
  simp [weight_nil]

lemma build_vector_nil : build_vector [] = [] := rfl

lemma to_dense_vector_ne_nil (v : PrimeVector) :
    to_dense_vector v 100 ≠ [] := by
  unfold to_dense_vector
  intro h
  have := congrArg List.length h
  simp at this

lemma update_document_relationships_get? (docs : List IndexedDocument) (i : ℕ)
    (hi : i < docs.length) (hn : 1 < docs.length) :
    ∃ d₀ d', docs.get? i = some d₀
      ∧ (update_document_relationships docs).get? i = some d'
      ∧ d'.reversibility = calculate_reversibility
          ((docs.map (fun d => to_dense_vector d.vector 1000)).getD i [])
          (((docs.map (fun d => to_dense_vector d.vector 1000)).enum.filter
              (fun x => x.1 ≠ i)).map Prod.snd)
      ∧ d'.historical_vectors =
          (if d₀.historical_vectors.length < 5
           then d₀.historical_vectors
                  ++ [(docs.map (fun d => to_dense_vector d.vector 1000)).getD i []]
           else d₀.historical_vectors) := by
  have hi' : i < (update_document_relationships docs).length := by
    simpa [update_document_relationships, List.length_mapIdx] using hi
  refine ⟨docs.get ⟨i, hi⟩, (update_document_relationships docs).get ⟨i, hi'⟩,
    ?_, ?_, ?_⟩
  · simp [List.get?_eq_getElem?, List.getElem?_eq_getElem hi,
      List.get_eq_getElem]
  · simp [List.get?_eq_getElem?, List.getElem?_eq_getElem hi',
      List.get_eq_getElem]
  · have hne : ((docs.map (fun d => to_dense_vector d.vector 1000)).enum.filter
        (fun x => x.1 ≠ i)).map Prod.snd ≠ [] := by
      obtain ⟨j, hj, hji⟩ : ∃ j, j < docs.length ∧ j ≠ i := by
        rcases Nat.lt_or_ge 0 i with h0 | h0
        · exact ⟨0, by omega, by omega⟩
        · exact ⟨1, by omega, by omega⟩
      have hjlen : j < (docs.map (fun d => to_dense_vector d.vector 1000)).length := by
        simpa using hj
      have hjlen' : j < (docs.map (fun d => to_dense_vector d.vector 1000)).enum.length := by
        simpa using hjlen
      apply List.ne_nil_of_mem
        (a := ((docs.map (fun d => to_dense_vector d.vector 1000)).enum.get
          ⟨j, hjlen'⟩).2)
      apply List.mem_map.mpr
      refine ⟨(docs.map (fun d => to_dense_vector d.vector 1000)).enum.get
        ⟨j, hjlen'⟩, ?_, rfl⟩
      apply List.mem_filter.mpr
      refine ⟨List.get_mem _ _ _, ?_⟩
      simp [List.get_eq_getElem, List.getElem_enum, hji]
    have hupd : (update_document_relationships docs).get ⟨i, hi'⟩ =
        (let all_vectors := docs.map (fun d => to_dense_vector d.vector 1000)
         let others_vectors :=
           (all_vectors.enum.filter (fun x => x.1 ≠ i)).map Prod.snd
         if others_vectors ≠ [] then
           let current_vec := all_vectors.getD i []
           { docs[i] with
             reversibility := calculate_reversibility current_vec others_vectors
             historical_vectors :=
               if docs[i].historical_vectors.length < 5 then
                 docs[i].historical_vectors ++ [current_vec]
               else docs[i].historical_vectors }
         else docs[i]) := by
      simp only [List.get_eq_getElem, update_document_relationships,
        List.getElem_mapIdx]
    rw [hupd]
    simp only [if_pos hne]
    constructor <;> trivial

lemma quantum_jump_doc_eq (query_vec : PrimeVector) (importance : ℝ) (now : ℕ)
    (d : IndexedDocument) :
    quantum_jump_doc query_vec importance now d
      = if 0.1 < dot_product query_vec d.vector then
          { d with
            historical_vectors :=
              if d.historical_vectors.length < 5 then
                d.historical_vectors ++ [to_dense_vector d.vector 1000]
              else d.historical_vectors.drop 1 ++ [to_dense_vector d.vector 1000]
            reversibility := d.reversibility * 0.9
              + 0.1 * (dot_product query_vec d.vector * importance)
            timestamp :=
              if 24 * 3600 < now - d.timestamp
              then now - (now - d.timestamp) / 2
              else d.timestamp }
        else d := by
  have h100d : to_dense_vector d.vector 100 ≠ [] := to_dense_vector_ne_nil _
  have h100q : to_dense_vector query_vec 100 ≠ [] := to_dense_vector_ne_nil _
  by_cases hres : (0.1 : ℝ) < dot_product query_vec d.vector
  · by_cases hlen : d.historical_vectors.length < 5
    · simp [quantum_jump_doc, h100d, h100q, hres, hlen]
    · have hne : d.historical_vectors ≠ [] := by
        intro h
        rw [h] at hlen
        simp at hlen
      simp [quantum_jump_doc, h100d, h100q, hres, hlen, hne]
  · simp [quantum_jump_doc, h100d, h100q, hres]

lemma search_state_docs (e : ResonantEngine) (query_words : List String)
    (top_k now : ℕ) :
    (search e query_words top_k now).2.docs
      = update_document_relationships e.docs := by
  by_cases hq : (tokenize e.tokenizer query_words).1 = [] <;>
    simp [search, hq]

/-- The tab character separating checkpoint fields. -/
def TAB : Char := '\t'

/-- Abstract formatter/parser pair standing in for Rust's `f64`/`u64`
`Display` and `str::parse` in the checkpoint format: binary floating-point
formatting is not embeddable, so the round-trip facts of the Rust formatter
(`parse(format(x)) == x`, and that formatted numbers contain no tab) are
hypothesised exactly where theorems need them. -/
structure NumCodec where
  printR : ℝ → List Char
  parseR : List Char → Option ℝ
  printN : ℕ → List Char
  parseN : List Char → Option ℕ

/-- One document record written by `save_checkpoint` (`engine.rs`
lines 114-122): `url \t title(tabs→spaces) \t entropy \t reversibility \t
timestamp`. -/
def checkpoint_doc_line (cdc : NumCodec) (d : IndexedDocument) : List Char :=
  d.path.data ++ [TAB]
    ++ d.title.data.map (fun ch => if ch = TAB then ' ' else ch) ++ [TAB]
    ++ cdc.printR d.entropy ++ [TAB]
    ++ cdc.printR d.reversibility ++ [TAB]
    ++ cdc.printN d.timestamp

/-- `save_checkpoint` (`engine.rs` lines 100-126), modelled at the level of
the written lines (each `writeln!` emits one line): three `#` header lines
followed by one tab-separated record per document. -/
def save_checkpoint (cdc : NumCodec) (e : ResonantEngine) (now : ℕ) :
    List (List Char) :=
  ("# Resonant Search Engine Checkpoint").data
    :: (("# Total documents: ").data ++ cdc.printN e.docs.length)
    :: (("# Timestamp: ").data ++ cdc.printN now)
    :: e.docs.map (checkpoint_doc_line cdc)

/-- `process_checkpoint_line` (`engine.rs` lines 152-189): fewer than 5
tab-separated fields is an error; unparsable numeric fields default to
entropy 0, reversibility 1, timestamp 0; the document is appended as a
placeholder (empty text, placeholder vector, buffering 0.5). -/
noncomputable def process_checkpoint_line (cdc : NumCodec) (st : ResonantEngine)
    (line : List Char) : Except String ResonantEngine :=
  let parts := List.splitOn TAB line
  if parts.length < 5 then
    Except.error ("Invalid checkpoint line: " ++ String.mk line)
  else
    let url := parts.getD 0 []
    let title := parts.getD 1 []
    let entropy := (cdc.parseR (parts.getD 2 [])).getD 0
    let reversibility := (cdc.parseR (parts.getD 3 [])).getD 1
    let timestamp := (cdc.parseN (parts.getD 4 [])).getD 0
    let tkr := tokenize st.tokenizer ["placeholder"]
    let vector := build_vector tkr.1
    let biorthogonal := build_biorthogonal_vector tkr.1
    let dense_vec := to_dense_vector vector 1000
    Except.ok { st with
      tokenizer := tkr.2
      docs := st.docs ++ [{
        title := String.mk title
        text := ""
        vector := vector
        biorthogonal := biorthogonal
        entropy := entropy
        path := String.mk url
        timestamp := timestamp
        reversibility := reversibility
        buffering := 0.5
        historical_vectors := [dense_vec] }] }

/-- `load_checkpoint` (`engine.rs` lines 129-149): skip the leading `#`
header lines, then process every remaining line, propagating the first
error. -/
noncomputable def load_checkpoint (cdc : NumCodec) (e : ResonantEngine)
    (file : List (List Char)) : Except String ResonantEngine :=
  (file.dropWhile (fun l => l.head? == some '#')).foldlM
    (process_checkpoint_line cdc) e

/-- The five fields the checkpoint persists per document. -/
def checkpoint_tuple (d : IndexedDocument) : String × String × ℝ × ℝ × ℕ :=
  (d.path, d.title, d.entropy, d.reversibility, d.timestamp)

lemma TAB_not_mem_sanitized (l : List Char) :
    TAB ∉ l.map (fun ch => if ch = TAB then ' ' else ch) := by
  intro h
  obtain ⟨ch, _, heq⟩ := List.mem_map.mp h
  by_cases hch : ch = TAB
  · rw [if_pos hch] at heq
    exact absurd heq (by decide)
  · rw [if_neg hch] at heq
    exact hch heq

lemma sanitized_eq_self (l : List Char) (h : TAB ∉ l) :
    l.map (fun ch => if ch = TAB then ' ' else ch) = l := by
  have : ∀ ch ∈ l, (if ch = TAB then ' ' else ch) = ch := by
    intro ch hch
    rw [if_neg]
    intro heq
    exact h (heq ▸ hch)
  rw [List.map_congr_left this]
  exact List.map_id l

lemma splitOn_five (u t f2 f3 f4 : List Char)
    (hu : TAB ∉ u) (ht : TAB ∉ t) (h2 : TAB ∉ f2) (h3 : TAB ∉ f3)
    (h4 : TAB ∉ f4) :
    List.splitOn TAB (u ++ [TAB] ++ t ++ [TAB] ++ f2 ++ [TAB] ++ f3
      ++ [TAB] ++ f4) = [u, t, f2, f3, f4] := by
  have hjoin : u ++ [TAB] ++ t ++ [TAB] ++ f2 ++ [TAB] ++ f3 ++ [TAB] ++ f4
      = [TAB].intercalate [u, t, f2, f3, f4] := by
    simp [List.intercalate, List.intersperse]
  rw [hjoin]
  apply List.splitOn_intercalate
  · intro l hl
    simp only [List.mem_cons, List.mem_singleton] at hl
    rcases hl with rfl | rfl | rfl | rfl | rfl | h
    · exact hu
    · exact ht
    · exact h2
    · exact h3
    · exact h4
    · simp at h
  · simp

lemma splitOn_doc_line (cdc : NumCodec) (d : IndexedDocument)
    (hpath : TAB ∉ d.path.data)
    (hE : TAB ∉ cdc.printR d.entropy)
    (hRv : TAB ∉ cdc.printR d.reversibility)
    (hT : TAB ∉ cdc.printN d.timestamp) :
    List.splitOn TAB (checkpoint_doc_line cdc d)
      = [d.path.data,
         d.title.data.map (fun ch => if ch = TAB then ' ' else ch),
         cdc.printR d.entropy, cdc.printR d.reversibility,
         cdc.printN d.timestamp] :=
  splitOn_five _ _ _ _ _ hpath (TAB_not_mem_sanitized _) hE hRv hT

lemma process_line_error (cdc : NumCodec) (st : ResonantEngine)
    (line : List Char) (h : (List.splitOn TAB line).length < 5) :
    process_checkpoint_line cdc st line
      = Except.error ("Invalid checkpoint line: " ++ String.mk line) := by
  simp [process_checkpoint_line, h]

lemma process_line_ok (cdc : NumCodec) (st : ResonantEngine)
    (d : IndexedDocument)
    (hpath : TAB ∉ d.path.data) (htitle : TAB ∉ d.title.data)
    (hE : cdc.parseR (cdc.printR d.entropy) = some d.entropy)
    (hE' : TAB ∉ cdc.printR d.entropy)
    (hRv : cdc.parseR (cdc.printR d.reversibility) = some d.reversibility)
    (hRv' : TAB ∉ cdc.printR d.reversibility)
    (hT : cdc.parseN (cdc.printN d.timestamp) = some d.timestamp)
    (hT' : TAB ∉ cdc.printN d.timestamp) :
    ∃ d', process_checkpoint_line cdc st (checkpoint_doc_line cdc d)
        = Except.ok { st with
            tokenizer := (tokenize st.tokenizer ["placeholder"]).2
            docs := st.docs ++ [d'] }
      ∧ checkpoint_tuple d' = checkpoint_tuple d
      ∧ d'.text = "" := by
  have hsplit := splitOn_doc_line cdc d hpath hE' hRv' hT'
  rw [sanitized_eq_self d.title.data htitle] at hsplit
  refine ⟨{ title := String.mk d.title.data
            text := ""
            vector := build_vector (tokenize st.tokenizer ["placeholder"]).1
            biorthogonal := build_biorthogonal_vector
              (tokenize st.tokenizer ["placeholder"]).1
            entropy := d.entropy
            path := String.mk d.path.data
            timestamp := d.timestamp
            reversibility := d.reversibility
            buffering := 0.5
            historical_vectors := [to_dense_vector
              (build_vector (tokenize st.tokenizer ["placeholder"]).1) 1000] },
    ?_, rfl, rfl⟩
  simp only [process_checkpoint_line, hsplit]
  rw [if_neg (by norm_num)]
  simp [List.getD, hE, hRv, hT]

lemma load_doc_lines (cdc : NumCodec) (docs : List IndexedDocument)
    (h : ∀ d ∈ docs, TAB ∉ d.path.data ∧ TAB ∉ d.title.data
      ∧ (cdc.parseR (cdc.printR d.entropy) = some d.entropy
          ∧ TAB ∉ cdc.printR d.entropy)
      ∧ (cdc.parseR (cdc.printR d.reversibility) = some d.reversibility
          ∧ TAB ∉ cdc.printR d.reversibility)
      ∧ (cdc.parseN (cdc.printN d.timestamp) = some d.timestamp
          ∧ TAB ∉ cdc.printN d.timestamp)) :
    ∀ st : ResonantEngine, ∃ st',
      (docs.map (checkpoint_doc_line cdc)).foldlM
          (process_checkpoint_line cdc) st = Except.ok st'
      ∧ st'.docs.map checkpoint_tuple
          = st.docs.map checkpoint_tuple ++ docs.map checkpoint_tuple
      ∧ ∀ d' ∈ st'.docs, d' ∈ st.docs ∨ d'.text = "" := by
  induction docs with
  | nil =>
      intro st
      exact ⟨st, rfl, by simp, fun d' hd' => Or.inl hd'⟩
  | cons d ds ih =>
      intro st
      obtain ⟨hp, ht, ⟨hE, hE'⟩, ⟨hR, hR'⟩, ⟨hT, hT'⟩⟩ :=
        h d (List.mem_cons_self d ds)
      obtain ⟨d', hok, htuple, htext⟩ :=
        process_line_ok cdc st d hp ht hE hE' hR hR' hT hT'
      obtain ⟨st', hfold, htuples, htexts⟩ :=
        ih (fun x hx => h x (List.mem_cons_of_mem d hx))
          { st with
            tokenizer := (tokenize st.tokenizer ["placeholder"]).2
            docs := st.docs ++ [d'] }
      refine ⟨st', ?_, ?_, ?_⟩
      · rw [List.map_cons, List.foldlM_cons, hok]
        simpa using hfold
      · rw [htuples]
        simp [htuple]
      · intro x hx
        rcases htexts x hx with hmem | htxt
        · simp only [List.mem_append, List.mem_singleton] at hmem
          rcases hmem with hmem | rfl
          · exact Or.inl hmem
          · exact Or.inr htext
        · exact Or.inr htxt

lemma dropWhile_save (cdc : NumCodec) (e : ResonantEngine) (now : ℕ)
    (hhash : ∀ d ∈ e.docs, d.path.data.head? ≠ some '#') :
    (save_checkpoint cdc e now).dropWhile (fun l => l.head? == some '#')
      = e.docs.map (checkpoint_doc_line cdc) := by
  simp only [save_checkpoint]
  rw [List.dropWhile_cons, if_pos (by rfl), List.dropWhile_cons,
    if_pos (by rfl), List.dropWhile_cons, if_pos (by rfl)]
  cases hd : e.docs with
  | nil => simp
  | cons d ds =>
      simp only [List.map_cons]
      rw [List.dropWhile_cons, if_neg]
      simp only [beq_iff_eq]
      intro hhead
      have hne := hhash d (by rw [hd]; exact List.mem_cons_self d ds)
      rw [checkpoint_doc_line] at hhead
      cases hpd : d.path.data with
      | nil =>
          rw [hpd] at hhead
          simp [TAB] at hhead
      | cons c cs =>
          rw [hpd] at hhead
          simp at hhead
          rw [hpd] at hne
          simp [hhead] at hne

/-- Stage of a crawl worker between suspension points.  The workers of
`Crawler::crawl` (`crawler.rs` lines 182-297) run inside one
`for_each_concurrent` task, so they interleave only at `await`s: the
synchronous stretch from the top of the loop — budget check, queue pop,
visited check, mark-visited, URL parse and domain filter — is one atomic
step; `fetching` spans the awaited rate-limit sleep, politeness jitter and
HTTP fetch; link extraction and enqueueing (`fetch_and_process_url`,
lines 353-374) are synchronous again.  The fetch log records, per entered
`fetching` stage, the URL whose request that stage issues. -/
inductive WorkerStage where
  | top : WorkerStage
  | fetching (url : String) (depth : ℕ) : WorkerStage
  | idle : WorkerStage
  | done : WorkerStage

/-- Shared crawl state: the frontier queue of (url, depth) pairs, the
visited set, the log of issued fetches, and each worker's stage. -/
structure CrawlState where
  queue : List (String × ℕ)
  visited : List String
  fetchLog : List String
  workers : List WorkerStage

/-- Crawl limits (`max_depth`, `max_pages` fields of `Crawler`). -/
structure CrawlConfig where
  max_depth : ℕ
  max_pages : ℕ

/-- One interleaved step of some worker `i`.  Fetch outcomes and extracted
links are nondeterministic (network), as are URL-parse failures and the
domain filter (`pop_skip` over-approximates both: the URL is marked visited
but nothing is fetched). -/
inductive CrawlStep (cfg : CrawlConfig) : CrawlState → CrawlState → Prop where
  | budget_stop (s : CrawlState) (i : ℕ)
      (hw : s.workers.get? i = some .top)
      (h : cfg.max_pages ≤ s.visited.length) :
      CrawlStep cfg s { s with workers := s.workers.set i .done }
  | pop_empty (s : CrawlState) (i : ℕ)
      (hw : s.workers.get? i = some .top)
      (h : s.visited.length < cfg.max_pages) (hq : s.queue = []) :
      CrawlStep cfg s { s with workers := s.workers.set i .idle }
  | pop_visited (s : CrawlState) (i : ℕ) (u : String) (d : ℕ)
      (q : List (String × ℕ))
      (hw : s.workers.get? i = some .top)
      (h : s.visited.length < cfg.max_pages) (hq : s.queue = (u, d) :: q)
      (hv : u ∈ s.visited) :
      CrawlStep cfg s { s with queue := q }
  | pop_skip (s : CrawlState) (i : ℕ) (u : String) (d : ℕ)
      (q : List (String × ℕ))
      (hw : s.workers.get? i = some .top)
      (h : s.visited.length < cfg.max_pages) (hq : s.queue = (u, d) :: q)
      (hv : u ∉ s.visited) :
      CrawlStep cfg s { s with queue := q, visited := u :: s.visited }
  | pop_fetch (s : CrawlState) (i : ℕ) (u : String) (d : ℕ)
      (q : List (String × ℕ))
      (hw : s.workers.get? i = some .top)
      (h : s.visited.length < cfg.max_pages) (hq : s.queue = (u, d) :: q)
      (hv : u ∉ s.visited) :
      CrawlStep cfg s { s with
        queue := q
        visited := u :: s.visited
        fetchLog := u :: s.fetchLog
        workers := s.workers.set i (.fetching u d) }
  | fetch_fail (s : CrawlState) (i : ℕ) (u : String) (d : ℕ)
      (hw : s.workers.get? i = some (.fetching u d)) :
      CrawlStep cfg s { s with workers := s.workers.set i .top }
  | fetch_ok (s : CrawlState) (i : ℕ) (u : String) (d : ℕ)
      (links : List String)
      (hw : s.workers.get? i = some (.fetching u d)) :
      CrawlStep cfg s { s with
        workers := s.workers.set i .top
        queue := s.queue ++
          (if d < cfg.max_depth then
            (links.filter (fun l => !s.visited.contains l)).map
              (fun l => (l, d + 1))
          else []) }
  | idle_empty (s : CrawlState) (i : ℕ)
      (hw : s.workers.get? i = some .idle) (hq : s.queue = []) :
      CrawlStep cfg s { s with workers := s.workers.set i .done }
  | idle_retry (s : CrawlState) (i : ℕ)
      (hw : s.workers.get? i = some .idle) (hq : s.queue ≠ []) :
      CrawlStep cfg s { s with workers := s.workers.set i .top }

/-- Initial crawl state: seed URLs at depth 0 (`crawler.rs` lines 148-153),
no page visited, all workers at the loop top. -/
def crawl_init (seeds : List String) (num_workers : ℕ) : CrawlState :=
  { queue := seeds.map (fun u => (u, 0))
    visited := []
    fetchLog := []
    workers := List.replicate num_workers .top }

/-- Reachability under interleaved worker steps. -/
def CrawlReach (cfg : CrawlConfig) : CrawlState → CrawlState → Prop :=
  Relation.ReflTransGen (CrawlStep cfg)

/-- The crawl safety invariant: never more than `max_pages` distinct visited
URLs, no URL fetched twice (every fetched URL was unvisited when its fetch
was initiated and is in the visited set), and every queued link sits at
depth at most `max_depth`. -/
def CrawlInv (cfg : CrawlConfig) (s : CrawlState) : Prop :=
  s.visited.length ≤ cfg.max_pages
  ∧ s.visited.Nodup
  ∧ s.fetchLog.Nodup
  ∧ (∀ u ∈ s.fetchLog, u ∈ s.visited)
  ∧ (∀ p ∈ s.queue, p.2 ≤ cfg.max_depth)

lemma crawl_inv_init (cfg : CrawlConfig) (seeds : List String)
    (num_workers : ℕ) : CrawlInv cfg (crawl_init seeds num_workers) := by
  refine ⟨by simp [crawl_init], by simp [crawl_init], by simp [crawl_init],
    by simp [crawl_init], ?_⟩
  intro p hp
  simp only [crawl_init] at hp
  obtain ⟨u, _, rfl⟩ := List.mem_map.mp hp
  simp

lemma crawl_inv_step {cfg : CrawlConfig} {s s' : CrawlState}
    (hstep : CrawlStep cfg s s') (hinv : CrawlInv cfg s) : CrawlInv cfg s' := by
  obtain ⟨hlen, hnd, hfnd, hfv, hqd⟩ := hinv
  cases hstep with
  | budget_stop i hw h => exact ⟨hlen, hnd, hfnd, hfv, hqd⟩
  | pop_empty i hw h hq => exact ⟨hlen, hnd, hfnd, hfv, hqd⟩
  | pop_visited i u d q hw h hq hv =>
      refine ⟨hlen, hnd, hfnd, hfv, ?_⟩
      intro p hp
      exact hqd p (by rw [hq]; exact List.mem_cons_of_mem _ hp)
  | pop_skip i u d q hw h hq hv =>
      refine ⟨by simpa using h, List.nodup_cons.mpr ⟨hv, hnd⟩, hfnd, ?_, ?_⟩
      · intro x hx
        exact List.mem_cons_of_mem _ (hfv x hx)
      · intro p hp
        exact hqd p (by rw [hq]; exact List.mem_cons_of_mem _ hp)
  | pop_fetch i u d q hw h hq hv =>
      refine ⟨by simpa using h, List.nodup_cons.mpr ⟨hv, hnd⟩, ?_, ?_, ?_⟩
      · exact List.nodup_cons.mpr ⟨fun hu => hv (hfv u hu), hfnd⟩
      · intro x hx
        rcases List.mem_cons.mp hx with rfl | hx'
        · exact List.mem_cons_self _ _
        · exact List.mem_cons_of_mem _ (hfv x hx')
      · intro p hp
        exact hqd p (by rw [hq]; exact List.mem_cons_of_mem _ hp)
  | fetch_fail i u d hw => exact ⟨hlen, hnd, hfnd, hfv, hqd⟩
  | fetch_ok i u d links hw =>
      refine ⟨hlen, hnd, hfnd, hfv, ?_⟩
      intro p hp
      rcases List.mem_append.mp hp with hp' | hp'
      · exact hqd p hp'
      · by_cases hd : d < cfg.max_depth
        · rw [if_pos hd] at hp'
          obtain ⟨l, _, rfl⟩ := List.mem_map.mp hp'
          omega
        · rw [if_neg hd] at hp'
          simp at hp'
  | idle_empty i hw hq => exact ⟨hlen, hnd, hfnd, hfv, hqd⟩
  | idle_retry i hw hq => exact ⟨hlen, hnd, hfnd, hfv, hqd⟩

lemma crawl_inv_reach {cfg : CrawlConfig} {s s' : CrawlState}
    (hreach : CrawlReach cfg s s') (hinv : CrawlInv cfg s) : CrawlInv cfg s' := by
  induction hreach with
  | refl => exact hinv
  | tail _ hstep ih => exact crawl_inv_step hstep ih

/-- `respect_rate_limits` (`crawler.rs` lines 107-139): from the shared
per-domain last-access map, compute the sleep needed to keep a 1000 ms gap
from the recorded last access, and record `now` — the time at entry to the
limiter, captured before sleeping — as the domain's new last access.
Returns the wait in milliseconds (0 when no wait) and the updated map. -/
def respect_rate_limits (timestamps : List (String × ℕ)) (domain : String)
    (now : ℕ) : ℕ × List (String × ℕ) :=
  let wait_time :=
    match timestamps.lookup domain with
    | some last_access =>
        let elapsed := now - last_access
        if elapsed < 1000 then 1000 - elapsed else 0
    | none => 0
  (wait_time, (domain, now) :: timestamps.filter (fun p => p.1 ≠ domain))

/-- Time at which a worker entering the rate limiter at `t` issues its HTTP
request, per the worker code path (`crawler.rs` lines 247-257 and 316): the
rate-limit sleep, then a politeness jitter of 100-499 ms, then the fixed
50 ms pre-request sleep inside `fetch_and_process_url`. -/
def request_time (timestamps : List (String × ℕ)) (domain : String)
    (t jitter : ℕ) : ℕ :=
  t + (respect_rate_limits timestamps domain t).1 + jitter + 50

/-- A concrete codec used to instantiate the abstract number formatter in
witnesses and counterexamples; it is exact on the values 0 and 1, which is
all those concrete stores use (the real `f64` formatter also round-trips
them). -/
noncomputable def demo_codec : NumCodec :=
  { printR := fun x => if x = 0 then ['0'] else if x = 1 then ['1'] else ['?']
    parseR := fun s =>
      if s = ['0'] then some 0 else if s = ['1'] then some 1 else none
    printN := fun n => if n = 0 then ['0'] else if n = 1 then ['1'] else ['?']
    parseN := fun s =>
      if s = ['0'] then some 0 else if s = ['1'] then some 1 else none }

/-- A document whose title contains a tab character. -/
noncomputable def demo_doc : IndexedDocument :=
  { title := "a\tb"
    text := "x"
    vector := []
    biorthogonal := ⟨[], []⟩
    entropy := 0
    path := "u"
    timestamp := 0
    reversibility := 1
    buffering := 0.5
    historical_vectors := [] }

/-- An engine holding just `demo_doc`. -/
noncomputable def demo_engine : ResonantEngine :=
  { ResonantEngine.new with docs := [demo_doc] }

lemma foldlM_checkpoint_error (cdc : NumCodec) (lines : List (List Char))
    (l : List Char) (hl : l ∈ lines)
    (hbad : (List.splitOn TAB l).length < 5) :
    ∀ st, ∃ msg,
      lines.foldlM (process_checkpoint_line cdc) st = Except.error msg := by
  induction lines with
  | nil => simp at hl
  | cons a ls ih =>
      intro st
      rw [List.foldlM_cons]
      cases hpa : process_checkpoint_line cdc st a with
      | error msg => exact ⟨msg, rfl⟩
      | ok st₁ =>
          rcases List.mem_cons.mp hl with rfl | hl'
          · rw [process_line_error cdc st l hbad] at hpa
            exact absurd hpa (by simp)
          · obtain ⟨msg, hmsg⟩ := ih hl' st₁
            exact ⟨msg, hmsg⟩

end RSearch

/-- Claim C2: for every non-empty token sequence, `build_vector` returns a
vector whose weights have Euclidean norm within 1e-9 of 1.0, each weight
being the prime's occurrence count divided by the L2 norm of the counts; for
the empty token sequence it returns the empty vector. -/
theorem claim_C2_build_vector_normalized (primes : List ℕ) :
    (primes ≠ [] →
      |Real.sqrt (((RSearch.build_vector primes).map (fun pv => pv.2 ^ 2)).sum) - 1|
          ≤ 1e-9
      ∧ ∀ pv ∈ RSearch.build_vector primes,
          pv.2 = (primes.count pv.1 : ℝ) / RSearch.counts_norm primes)
    ∧ RSearch.build_vector ([] : List ℕ) = [] := by
  constructor
  · intro h
    constructor
    · rw [RSearch.sum_sq_build_vector primes h]
      simp [Real.sqrt_one]
      norm_num
    · intro pv hpv
      have hpos := RSearch.counts_norm_pos primes h
      unfold RSearch.build_vector at hpv
      rw [if_neg h, if_pos hpos] at hpv
      obtain ⟨p, _, rfl⟩ := List.mem_map.mp hpv
      rfl
  · rfl

/-- Witness for C2 at the concrete token list `[2, 2, 3]`. -/
theorem claim_C2_witness :
    (([2, 2, 3] : List ℕ) ≠ []
      ∧ (|Real.sqrt (((RSearch.build_vector [2, 2, 3]).map (fun pv => pv.2 ^ 2)).sum) - 1|
          ≤ 1e-9
        ∧ ∀ pv ∈ RSearch.build_vector [2, 2, 3],
            pv.2 = (([2, 2, 3] : List ℕ).count pv.1 : ℝ) / RSearch.counts_norm [2, 2, 3])) :=
  ⟨by simp, (claim_C2_build_vector_normalized [2, 2, 3]).1 (by simp)⟩

/-- Claim C4: `persistence_score` returns 0 whenever `buffering ≤ 0` (in
particular at `buffering = 0`), and otherwise returns
`exp(-fragility·(1-reversibility)·(pressure/buffering))`. -/
theorem claim_C4_persistence_score (r p b f : ℝ) :
    (b ≤ 0 → RSearch.persistence_score r p b f = 0)
    ∧ (RSearch.persistence_score r p 0 f = 0)
    ∧ (0 < b → RSearch.persistence_score r p b f
        = Real.exp (-(f * (1 - r) * (p / b)))) := by
  refine ⟨fun hb => ?_, ?_, fun hb => ?_⟩
  · simp [RSearch.persistence_score, hb]
  · simp [RSearch.persistence_score]
  · unfold RSearch.persistence_score
    rw [if_neg (not_le.mpr hb)]
    ring_nf

/-- Witness for C4 at concrete arguments: `b = 0` gives 0 and `b = 1` gives
the exponential form. -/
theorem claim_C4_witness :
    RSearch.persistence_score 1 1 0 1 = 0
    ∧ RSearch.persistence_score 1 1 1 1 = Real.exp (-(1 * (1 - 1) * (1 / 1))) :=
  ⟨(claim_C4_persistence_score 1 1 0 1).1 le_rfl,
   (claim_C4_persistence_score 1 1 1 1).2.2 zero_lt_one⟩

/-- Claim C3: in any sequence of tokenizations starting from a fresh
tokenizer, tokens first seen earlier carry strictly smaller primes than
tokens first seen later, and re-tokenizing an already-seen token returns its
original prime and leaves the whole tokenizer state (vocabulary and
last-assigned-prime cursor) unchanged. -/
theorem claim_C3_tokenizer_invariants (texts : List (List String)) :
    (∀ i j (hi : i < (RSearch.tokenize_texts RSearch.PrimeTokenizer.new
          texts).token_to_prime.length)
        (hj : j < (RSearch.tokenize_texts RSearch.PrimeTokenizer.new
          texts).token_to_prime.length),
        i < j →
        ((RSearch.tokenize_texts RSearch.PrimeTokenizer.new
            texts).token_to_prime.get ⟨i, hi⟩).2
          < ((RSearch.tokenize_texts RSearch.PrimeTokenizer.new
              texts).token_to_prime.get ⟨j, hj⟩).2)
    ∧ (∀ t p, (t, p) ∈ (RSearch.tokenize_texts RSearch.PrimeTokenizer.new
          texts).token_to_prime →
        RSearch.tokenize_word
            (RSearch.tokenize_texts RSearch.PrimeTokenizer.new texts) t
          = (p, RSearch.tokenize_texts RSearch.PrimeTokenizer.new texts)) := by
  have hwf := RSearch.tokenize_texts_WF RSearch.TokenizerWF_new texts
  obtain ⟨hch, _, hnd⟩ := hwf
  constructor
  · intro i j hi hj hij
    have hpw : List.Pairwise (· < ·)
        ((RSearch.tokenize_texts RSearch.PrimeTokenizer.new
          texts).token_to_prime.map Prod.snd) :=
      List.chain'_iff_pairwise.mp hch
    have := List.pairwise_iff_get.mp hpw
      ⟨i, by simpa using hi⟩ ⟨j, by simpa using hj⟩ hij
    simpa [List.get_map] using this
  · intro t p hmem
    have hlk := RSearch.lookup_eq_some_of_mem hnd hmem
    simp [RSearch.tokenize_word, hlk]

/-- Witness for C3 on the texts `[["hello", "world", "hello"]]`: the fresh
tokenizer assigns 3 to "hello" and 5 to "world", in order, and re-tokenizing
"hello" returns 3 without changing the state. -/
theorem claim_C3_witness :
    ((0 : ℕ) < (RSearch.tokenize_texts RSearch.PrimeTokenizer.new
        [["hello", "world", "hello"]]).token_to_prime.length
      ∧ (1 : ℕ) < (RSearch.tokenize_texts RSearch.PrimeTokenizer.new
        [["hello", "world", "hello"]]).token_to_prime.length
      ∧ ("hello", 3) ∈ (RSearch.tokenize_texts RSearch.PrimeTokenizer.new
        [["hello", "world", "hello"]]).token_to_prime)
    ∧ RSearch.tokenize_word
        (RSearch.tokenize_texts RSearch.PrimeTokenizer.new
          [["hello", "world", "hello"]]) "hello"
      = (3, RSearch.tokenize_texts RSearch.PrimeTokenizer.new
          [["hello", "world", "hello"]]) :=
  ⟨⟨by decide, by decide, by decide⟩,
   (claim_C3_tokenizer_invariants [["hello", "world", "hello"]]).2 "hello" 3
     (by decide)⟩

/-- Claim C5: `apply_quantum_jump` changes a stored document exactly when the
dot product of the query vector with the document vector exceeds 0.1; each
such document gets its current dense vector appended to its history (the
oldest entry evicted at capacity 5), its reversibility blended to
`0.9·reversibility + 0.1·(resonance·importance)`, and, only when its
timestamp is more than one day older than now, the timestamp moved forward
by half the elapsed gap; all other documents are untouched. -/
theorem claim_C5_quantum_jump (e : RSearch.ResonantEngine)
    (query_words : List String) (importance : ℝ) (now : ℕ) :
    (RSearch.apply_quantum_jump e query_words importance now).docs
      = e.docs.map (fun d =>
          if 0.1 < RSearch.dot_product
              (RSearch.build_vector (RSearch.tokenize e.tokenizer query_words).1)
              d.vector then
            { d with
              historical_vectors :=
                if d.historical_vectors.length < 5 then
                  d.historical_vectors ++ [RSearch.to_dense_vector d.vector 1000]
                else d.historical_vectors.drop 1
                      ++ [RSearch.to_dense_vector d.vector 1000]
              reversibility := d.reversibility * 0.9
                + 0.1 * (RSearch.dot_product
                    (RSearch.build_vector
                      (RSearch.tokenize e.tokenizer query_words).1)
                    d.vector * importance)
              timestamp :=
                if 24 * 3600 < now - d.timestamp
                then now - (now - d.timestamp) / 2
                else d.timestamp }
          else d) := by
  cases hq : (RSearch.tokenize e.tokenizer query_words).1 with
  | nil =>
      have hlhs : (RSearch.apply_quantum_jump e query_words importance now).docs
          = e.docs := by
        simp [RSearch.apply_quantum_jump, hq]
      rw [hlhs]
      have h01 : ¬ ((0.1 : ℝ) < 0) := by norm_num
      simp [hq, RSearch.build_vector_nil, RSearch.dot_product_nil_left, h01]
  | cons a l =>
      have hlhs : (RSearch.apply_quantum_jump e query_words importance now).docs
          = e.docs.map (RSearch.quantum_jump_doc
              (RSearch.build_vector (a :: l)) importance now) := by
        simp [RSearch.apply_quantum_jump, hq]
      rw [hlhs]
      apply List.map_congr_left
      intro d _
      exact RSearch.quantum_jump_doc_eq _ _ _ _

/-- Claim C10: a search whose query tokenizes to no tokens returns the empty
result list, yet the document store is still mutated by the relationship
recomputation that runs before the empty-query check: the post-search store
equals `update_document_relationships` of the old store — identical to the
mutation any other (non-empty) search would perform — and in a store with at
least two documents every document's reversibility is recomputed against all
other documents' dense vectors, with a dense snapshot appended to its
history while it holds fewer than 5 entries. -/
theorem claim_C10_empty_query_frame_effect (e : RSearch.ResonantEngine)
    (query_words : List String) (top_k now : ℕ)
    (h : (RSearch.tokenize e.tokenizer query_words).1 = []) :
    (RSearch.search e query_words top_k now).1 = []
    ∧ (RSearch.search e query_words top_k now).2.docs
        = RSearch.update_document_relationships e.docs
    ∧ (∀ other_words,
        (RSearch.search e other_words top_k now).2.docs
          = (RSearch.search e query_words top_k now).2.docs)
    ∧ (1 < e.docs.length → ∀ i, i < e.docs.length →
        ∃ d₀ d', e.docs.get? i = some d₀
          ∧ (RSearch.search e query_words top_k now).2.docs.get? i = some d'
          ∧ d'.reversibility = RSearch.calculate_reversibility
              ((e.docs.map (fun d => RSearch.to_dense_vector d.vector 1000)).getD i [])
              (((e.docs.map (fun d =>
                  RSearch.to_dense_vector d.vector 1000)).enum.filter
                  (fun x => x.1 ≠ i)).map Prod.snd)
          ∧ d'.historical_vectors =
              (if d₀.historical_vectors.length < 5
               then d₀.historical_vectors
                      ++ [(e.docs.map (fun d =>
                            RSearch.to_dense_vector d.vector 1000)).getD i []]
               else d₀.historical_vectors)) := by
  refine ⟨?_, ?_, ?_, ?_⟩
  · simp [RSearch.search, h]
  · exact RSearch.search_state_docs e query_words top_k now
  · intro other_words
    rw [RSearch.search_state_docs, RSearch.search_state_docs]
  · intro hn i hi
    obtain ⟨d₀, d', h1, h2, h3, h4⟩ :=
      RSearch.update_document_relationships_get? e.docs i hi hn
    exact ⟨d₀, d', h1, by rw [RSearch.search_state_docs]; exact h2, h3, h4⟩

/-- Witness for C10: a fresh engine searched with an empty word list. -/
theorem claim_C10_witness :
    (RSearch.tokenize RSearch.ResonantEngine.new.tokenizer []).1 = []
    ∧ ((RSearch.search RSearch.ResonantEngine.new [] 5 0).1 = []
        ∧ (RSearch.search RSearch.ResonantEngine.new [] 5 0).2.docs
            = RSearch.update_document_relationships RSearch.ResonantEngine.new.docs) :=
  ⟨rfl,
   ⟨(claim_C10_empty_query_frame_effect RSearch.ResonantEngine.new [] 5 0 rfl).1,
    (claim_C10_empty_query_frame_effect RSearch.ResonantEngine.new [] 5 0 rfl).2.1⟩⟩

/-- Claim C1: with the feature flags fixed, the combined score the search
sort uses equals `0.5·standard + 0.25·quantum + 0.25·persistence` when both
optional scores are enabled, `0.7·standard + 0.3·quantum` with only quantum,
`0.7·standard + 0.3·persistence` with only persistence, and the standard
score with neither; and the returned list is the per-document results sorted
descending by this combined score (ties equal), truncated to at most `top_k`
entries. -/
theorem claim_C1_search_ranking (e : RSearch.ResonantEngine)
    (query_words : List String) (top_k now : ℕ)
    (hq : (RSearch.tokenize e.tokenizer query_words).1 ≠ []) :
    (∀ r ∈ RSearch.search_results e query_words now,
      (e.use_quantum_score = true → e.use_persistence_score = true →
        RSearch.combined_score e.use_quantum_score e.use_persistence_score r
          = 0.5 * r.score + 0.25 * r.quantum_score + 0.25 * r.persistence_score)
      ∧ (e.use_quantum_score = true → e.use_persistence_score = false →
        RSearch.combined_score e.use_quantum_score e.use_persistence_score r
          = 0.7 * r.score + 0.3 * r.quantum_score)
      ∧ (e.use_quantum_score = false → e.use_persistence_score = true →
        RSearch.combined_score e.use_quantum_score e.use_persistence_score r
          = 0.7 * r.score + 0.3 * r.persistence_score)
      ∧ (e.use_quantum_score = false → e.use_persistence_score = false →
        RSearch.combined_score e.use_quantum_score e.use_persistence_score r
          = r.score))
    ∧ List.Pairwise (fun a b =>
        RSearch.combined_score e.use_quantum_score e.use_persistence_score b
          ≤ RSearch.combined_score e.use_quantum_score e.use_persistence_score a)
        (RSearch.search e query_words top_k now).1
    ∧ (RSearch.search e query_words top_k now).1.length ≤ top_k
    ∧ ∃ full : List RSearch.SearchResult,
        (RSearch.search e query_words top_k now).1 = full.take top_k
        ∧ full.Perm (RSearch.search_results e query_words now)
        ∧ List.Pairwise (fun a b =>
            RSearch.combined_score e.use_quantum_score e.use_persistence_score b
              ≤ RSearch.combined_score e.use_quantum_score e.use_persistence_score a)
            full := by
  have htrans : ∀ a b c : RSearch.SearchResult,
      (decide (RSearch.combined_score e.use_quantum_score e.use_persistence_score b
        ≤ RSearch.combined_score e.use_quantum_score e.use_persistence_score a)) = true →
      (decide (RSearch.combined_score e.use_quantum_score e.use_persistence_score c
        ≤ RSearch.combined_score e.use_quantum_score e.use_persistence_score b)) = true →
      (decide (RSearch.combined_score e.use_quantum_score e.use_persistence_score c
        ≤ RSearch.combined_score e.use_quantum_score e.use_persistence_score a)) = true := by
    intro a b c h1 h2
    rw [decide_eq_true_eq] at h1 h2 ⊢
    exact le_trans h2 h1
  have htotal : ∀ a b : RSearch.SearchResult,
      ((decide (RSearch.combined_score e.use_quantum_score e.use_persistence_score b
        ≤ RSearch.combined_score e.use_quantum_score e.use_persistence_score a))
       || (decide (RSearch.combined_score e.use_quantum_score e.use_persistence_score a
        ≤ RSearch.combined_score e.use_quantum_score e.use_persistence_score b))) = true := by
    intro a b
    rcases le_total
      (RSearch.combined_score e.use_quantum_score e.use_persistence_score b)
      (RSearch.combined_score e.use_quantum_score e.use_persistence_score a) with h | h
    · simp [h]
    · simp [h]
  have key : (RSearch.search e query_words top_k now).1
      = ((RSearch.search_results e query_words now).mergeSort
          (fun a b =>
            decide (RSearch.combined_score e.use_quantum_score e.use_persistence_score b
              ≤ RSearch.combined_score e.use_quantum_score e.use_persistence_score a))).take
          top_k := by
    simp only [RSearch.search, RSearch.search_results]
    rw [if_neg hq]
  have hsorted := List.sorted_mergeSort htrans htotal
    (RSearch.search_results e query_words now)
  have hsorted' : List.Pairwise (fun a b =>
      RSearch.combined_score e.use_quantum_score e.use_persistence_score b
        ≤ RSearch.combined_score e.use_quantum_score e.use_persistence_score a)
      ((RSearch.search_results e query_words now).mergeSort
        (fun a b =>
          decide (RSearch.combined_score e.use_quantum_score e.use_persistence_score b
            ≤ RSearch.combined_score e.use_quantum_score e.use_persistence_score a))) :=
    hsorted.imp (fun h => by rwa [decide_eq_true_eq] at h)
  refine ⟨?_, ?_, ?_, ?_⟩
  · intro r _
    refine ⟨?_, ?_, ?_, ?_⟩ <;> intro h1 h2 <;>
      simp [RSearch.combined_score, h1, h2] <;> ring
  · rw [key]
    exact hsorted'.sublist (List.take_sublist _ _)
  · rw [key]
    simp [List.length_take]
  · exact ⟨(RSearch.search_results e query_words now).mergeSort
      (fun a b =>
        decide (RSearch.combined_score e.use_quantum_score e.use_persistence_score b
          ≤ RSearch.combined_score e.use_quantum_score e.use_persistence_score a)),
      key, List.mergeSort_perm _ _, hsorted'⟩

/-- Witness for C1: a fresh engine (both optional scores enabled) searched
with the single word "hello". -/
theorem claim_C1_witness :
    ((RSearch.tokenize RSearch.ResonantEngine.new.tokenizer ["hello"]).1 ≠ [])
    ∧ ((RSearch.search RSearch.ResonantEngine.new ["hello"] 5 0).1.length ≤ 5) :=
  ⟨by decide,
   ((claim_C1_search_ranking RSearch.ResonantEngine.new ["hello"] 5 0
      (by decide)).2.2.1)⟩

/-- Claim C8 as stated is false: a title containing a tab character is
written with the tab replaced by a space (`engine.rs` line 117), so the
reloaded (url, title, entropy, reversibility, timestamp) tuple differs from
the saved one at the title.  Concretely, a store holding one document titled
"a\tb" reloads with title "a b". -/
theorem claim_C8_counterexample :
    ∃ e', RSearch.load_checkpoint RSearch.demo_codec RSearch.ResonantEngine.new
        (RSearch.save_checkpoint RSearch.demo_codec RSearch.demo_engine 0)
        = Except.ok e'
      ∧ e'.docs.map (fun d => d.title) = ["a b"]
      ∧ RSearch.demo_engine.docs.map (fun d => d.title) = ["a\tb"]
      ∧ ("a b" : String) ≠ "a\tb" := by
  have hline : RSearch.checkpoint_doc_line RSearch.demo_codec RSearch.demo_doc
      = "u\ta b\t0\t1\t0".data := by
    simp only [RSearch.checkpoint_doc_line, RSearch.demo_codec, RSearch.demo_doc]
    norm_num
    decide
  have hdrop : (RSearch.save_checkpoint RSearch.demo_codec RSearch.demo_engine
        0).dropWhile (fun l => l.head? == some '#')
      = ["u\ta b\t0\t1\t0".data] := by
    rw [RSearch.dropWhile_save RSearch.demo_codec RSearch.demo_engine 0
      (by intro d hd
          simp only [RSearch.demo_engine, RSearch.ResonantEngine.new,
            List.mem_singleton] at hd
          subst hd
          decide)]
    simp [RSearch.demo_engine, RSearch.ResonantEngine.new, hline]
  have hsplit : List.splitOn RSearch.TAB "u\ta b\t0\t1\t0".data
      = [['u'], ['a', ' ', 'b'], ['0'], ['1'], ['0']] := by decide
  have hpn : RSearch.demo_codec.parseN ['0'] = some 0 := by decide
  have hproc : RSearch.process_checkpoint_line RSearch.demo_codec
      RSearch.ResonantEngine.new "u\ta b\t0\t1\t0".data
      = Except.ok { RSearch.ResonantEngine.new with
          tokenizer := (RSearch.tokenize RSearch.ResonantEngine.new.tokenizer
            ["placeholder"]).2
          docs := [{
            title := "a b"
            text := ""
            vector := RSearch.build_vector
              (RSearch.tokenize RSearch.ResonantEngine.new.tokenizer
                ["placeholder"]).1
            biorthogonal := RSearch.build_biorthogonal_vector
              (RSearch.tokenize RSearch.ResonantEngine.new.tokenizer
                ["placeholder"]).1
            entropy := 0
            path := "u"
            timestamp := 0
            reversibility := 1
            buffering := 0.5
            historical_vectors := [RSearch.to_dense_vector
              (RSearch.build_vector
                (RSearch.tokenize RSearch.ResonantEngine.new.tokenizer
                  ["placeholder"]).1) 1000] }] } := by
    simp only [RSearch.process_checkpoint_line, hsplit]
    rw [if_neg (by norm_num)]
    simp only [List.getD, RSearch.demo_codec, hpn]
    norm_num
    rfl
  refine ⟨{ RSearch.ResonantEngine.new with
      tokenizer := (RSearch.tokenize RSearch.ResonantEngine.new.tokenizer
        ["placeholder"]).2
      docs := [{
        title := "a b"
        text := ""
        vector := RSearch.build_vector
          (RSearch.tokenize RSearch.ResonantEngine.new.tokenizer
            ["placeholder"]).1
        biorthogonal := RSearch.build_biorthogonal_vector
          (RSearch.tokenize RSearch.ResonantEngine.new.tokenizer
            ["placeholder"]).1
        entropy := 0
        path := "u"
        timestamp := 0
        reversibility := 1
        buffering := 0.5
        historical_vectors := [RSearch.to_dense_vector
          (RSearch.build_vector
            (RSearch.tokenize RSearch.ResonantEngine.new.tokenizer
              ["placeholder"]).1) 1000] }] },
    ?_, ?_, ?_, ?_⟩
  · unfold RSearch.load_checkpoint
    rw [hdrop, List.foldlM_cons, hproc]
    rfl
  · rfl
  · simp [RSearch.demo_engine, RSearch.demo_doc]
  · decide

/-- Claim C8, amended: the checkpoint round-trip reproduces every document's
(url, title, entropy, reversibility, timestamp) tuple — and resets text to
empty — provided no url or title contains a tab (a tab in a title is
replaced by a space on save, the counterexample above) or a newline (which
would physically break the written line; the line-level file model makes
this hypothesis vacuous but a faithful save needs it), no url starts with
'#' (such a first record would be skipped as a header line), and the numeric
fields round-trip through the `f64`/`u64` formatter, as Rust's do. -/
theorem claim_C8_roundtrip (cdc : RSearch.NumCodec) (e : RSearch.ResonantEngine)
    (now : ℕ)
    (hfields : ∀ d ∈ e.docs,
      RSearch.TAB ∉ d.path.data ∧ RSearch.TAB ∉ d.title.data
      ∧ '\n' ∉ d.path.data ∧ '\n' ∉ d.title.data
      ∧ d.path.data.head? ≠ some '#')
    (hnum : ∀ d ∈ e.docs,
      (cdc.parseR (cdc.printR d.entropy) = some d.entropy
        ∧ RSearch.TAB ∉ cdc.printR d.entropy)
      ∧ (cdc.parseR (cdc.printR d.reversibility) = some d.reversibility
        ∧ RSearch.TAB ∉ cdc.printR d.reversibility)
      ∧ (cdc.parseN (cdc.printN d.timestamp) = some d.timestamp
        ∧ RSearch.TAB ∉ cdc.printN d.timestamp)) :
    ∃ e', RSearch.load_checkpoint cdc RSearch.ResonantEngine.new
        (RSearch.save_checkpoint cdc e now) = Except.ok e'
      ∧ e'.docs.map RSearch.checkpoint_tuple
          = e.docs.map RSearch.checkpoint_tuple
      ∧ ∀ d' ∈ e'.docs, d'.text = "" := by
  unfold RSearch.load_checkpoint
  rw [RSearch.dropWhile_save cdc e now (fun d hd => (hfields d hd).2.2.2.2)]
  obtain ⟨st', hfold, htup, htext⟩ := RSearch.load_doc_lines cdc e.docs
    (fun d hd => ⟨(hfields d hd).1, (hfields d hd).2.1, (hnum d hd).1,
      (hnum d hd).2.1, (hnum d hd).2.2⟩)
    RSearch.ResonantEngine.new
  refine ⟨st', hfold, ?_, ?_⟩
  · rw [htup]
    simp [RSearch.ResonantEngine.new]
  · intro d' hd'
    rcases htext d' hd' with h | h
    · simp [RSearch.ResonantEngine.new] at h
    · exact h

/-- Witness for the amended C8 at a concrete one-document store (title and
url tab-free, entropy 0, reversibility 1, timestamp 0) with the demo
codec. -/
theorem claim_C8_witness :
    ∃ e', RSearch.load_checkpoint RSearch.demo_codec RSearch.ResonantEngine.new
        (RSearch.save_checkpoint RSearch.demo_codec
          { RSearch.ResonantEngine.new with
            docs := [{ RSearch.demo_doc with title := "ab" }] } 0)
        = Except.ok e'
      ∧ e'.docs.map RSearch.checkpoint_tuple
          = [{ RSearch.demo_doc with title := "ab" }].map RSearch.checkpoint_tuple
      ∧ ∀ d' ∈ e'.docs, d'.text = "" :=
  claim_C8_roundtrip RSearch.demo_codec
    { RSearch.ResonantEngine.new with
      docs := [{ RSearch.demo_doc with title := "ab" }] } 0
    (by intro d hd
        simp only [List.mem_singleton] at hd
        subst hd
        refine ⟨by decide, by decide, by decide, by decide, by decide⟩)
    (by intro d hd
        simp only [List.mem_singleton] at hd
        subst hd
        refine ⟨⟨?_, ?_⟩, ⟨?_, ?_⟩, ⟨?_, ?_⟩⟩ <;>
          simp [RSearch.demo_codec, RSearch.demo_doc] <;> decide)

/-- Claim C9: a checkpoint data line with fewer than 5 tab-separated fields
makes `process_checkpoint_line` — and hence the whole `load_checkpoint`
call — return an error, whereas a 5-field line whose numeric fields fail to
parse is not an error: entropy defaults to 0.0, reversibility to 1.0,
timestamp to 0, and the document is still loaded. -/
theorem claim_C9_checkpoint_malformed (cdc : RSearch.NumCodec) :
    (∀ (st : RSearch.ResonantEngine) (line : List Char),
      (List.splitOn RSearch.TAB line).length < 5 →
      RSearch.process_checkpoint_line cdc st line
        = Except.error ("Invalid checkpoint line: " ++ String.mk line))
    ∧ (∀ (e : RSearch.ResonantEngine) (file : List (List Char)) (l : List Char),
        l ∈ file.dropWhile (fun l => l.head? == some '#') →
        (List.splitOn RSearch.TAB l).length < 5 →
        ∃ msg, RSearch.load_checkpoint cdc e file = Except.error msg)
    ∧ (∀ (st : RSearch.ResonantEngine) (u t f2 f3 f4 : List Char),
        RSearch.TAB ∉ u → RSearch.TAB ∉ t → RSearch.TAB ∉ f2 →
        RSearch.TAB ∉ f3 → RSearch.TAB ∉ f4 →
        cdc.parseR f2 = none → cdc.parseR f3 = none → cdc.parseN f4 = none →
        ∃ st' d', RSearch.process_checkpoint_line cdc st
            (u ++ [RSearch.TAB] ++ t ++ [RSearch.TAB] ++ f2 ++ [RSearch.TAB]
              ++ f3 ++ [RSearch.TAB] ++ f4) = Except.ok st'
          ∧ st'.docs = st.docs ++ [d']
          ∧ d'.entropy = 0 ∧ d'.reversibility = 1 ∧ d'.timestamp = 0
          ∧ d'.path = String.mk u ∧ d'.title = String.mk t
          ∧ d'.text = "") := by
  refine ⟨?_, ?_, ?_⟩
  · intro st line h
    exact RSearch.process_line_error cdc st line h
  · intro e file l hl hbad
    exact RSearch.foldlM_checkpoint_error cdc _ l hl hbad e
  · intro st u t f2 f3 f4 hu ht h2 h3 h4 hp2 hp3 hp4
    have hsplit := RSearch.splitOn_five u t f2 f3 f4 hu ht h2 h3 h4
    refine ⟨{ st with
        tokenizer := (RSearch.tokenize st.tokenizer ["placeholder"]).2
        docs := st.docs ++ [{
          title := String.mk t
          text := ""
          vector := RSearch.build_vector
            (RSearch.tokenize st.tokenizer ["placeholder"]).1
          biorthogonal := RSearch.build_biorthogonal_vector
            (RSearch.tokenize st.tokenizer ["placeholder"]).1
          entropy := 0
          path := String.mk u
          timestamp := 0
          reversibility := 1
          buffering := 0.5
          historical_vectors := [RSearch.to_dense_vector
            (RSearch.build_vector
              (RSearch.tokenize st.tokenizer ["placeholder"]).1) 1000] }] },
      { title := String.mk t
        text := ""
        vector := RSearch.build_vector
          (RSearch.tokenize st.tokenizer ["placeholder"]).1
        biorthogonal := RSearch.build_biorthogonal_vector
          (RSearch.tokenize st.tokenizer ["placeholder"]).1
        entropy := 0
        path := String.mk u
        timestamp := 0
        reversibility := 1
        buffering := 0.5
        historical_vectors := [RSearch.to_dense_vector
          (RSearch.build_vector
            (RSearch.tokenize st.tokenizer ["placeholder"]).1) 1000] },
      ?_, rfl, rfl, rfl, rfl, rfl, rfl, rfl⟩
    simp only [RSearch.process_checkpoint_line, hsplit]
    rw [if_neg (by norm_num)]
    simp [List.getD, hp2, hp3, hp4]

/-- Witness for C9: with the demo codec, the 1-field line "x" is rejected,
and a 5-field line whose numeric fields are all "z" (unparsable) loads a
document with the default entropy 0, reversibility 1, timestamp 0. -/
theorem claim_C9_witness :
    ((List.splitOn RSearch.TAB ['x']).length < 5
      ∧ RSearch.process_checkpoint_line RSearch.demo_codec
          RSearch.ResonantEngine.new ['x']
        = Except.error ("Invalid checkpoint line: " ++ String.mk ['x']))
    ∧ (RSearch.demo_codec.parseR ['z'] = none
      ∧ RSearch.demo_codec.parseN ['z'] = none
      ∧ ∃ st' d', RSearch.process_checkpoint_line RSearch.demo_codec
            RSearch.ResonantEngine.new
            (['u'] ++ [RSearch.TAB] ++ ['t'] ++ [RSearch.TAB] ++ ['z']
              ++ [RSearch.TAB] ++ ['z'] ++ [RSearch.TAB] ++ ['z'])
          = Except.ok st'
        ∧ st'.docs = RSearch.ResonantEngine.new.docs ++ [d']
        ∧ d'.entropy = 0 ∧ d'.reversibility = 1 ∧ d'.timestamp = 0
        ∧ d'.path = String.mk ['u'] ∧ d'.title = String.mk ['t']
        ∧ d'.text = "") :=
  ⟨⟨by decide,
    (claim_C9_checkpoint_malformed RSearch.demo_codec).1
      RSearch.ResonantEngine.new ['x'] (by decide)⟩,
   ⟨by simp [RSearch.demo_codec], by decide,
    (claim_C9_checkpoint_malformed RSearch.demo_codec).2.2
      RSearch.ResonantEngine.new ['u'] ['t'] ['z'] ['z'] ['z']
      (by decide) (by decide) (by decide) (by decide) (by decide)
      (by simp [RSearch.demo_codec]) (by simp [RSearch.demo_codec])
      (by decide)⟩⟩

/-- Claim C6: in every crawl from a seed set, at most `max_pages` distinct
URLs are visited, no URL is ever fetched twice (every fetch is initiated on
a URL not yet in the visited set, which is marked in the same synchronous
section), and no link is ever enqueued at depth greater than `max_depth`
(links found at depth `d` are enqueued at `d+1` only when `d < max_depth`,
seeds at depth 0). -/
theorem claim_C6_crawl_budget (cfg : RSearch.CrawlConfig) (seeds : List String)
    (num_workers : ℕ) (s : RSearch.CrawlState)
    (hreach : RSearch.CrawlReach cfg (RSearch.crawl_init seeds num_workers) s) :
    s.visited.length ≤ cfg.max_pages
    ∧ s.visited.Nodup
    ∧ s.fetchLog.Nodup
    ∧ (∀ u ∈ s.fetchLog, u ∈ s.visited)
    ∧ (∀ p ∈ s.queue, p.2 ≤ cfg.max_depth) :=
  RSearch.crawl_inv_reach hreach
    (RSearch.crawl_inv_init cfg seeds num_workers)

/-- Witness for C6 at the initial state of a one-seed, one-worker crawl with
`max_pages = 1`, `max_depth = 2`. -/
theorem claim_C6_witness :
    RSearch.CrawlReach ⟨2, 1⟩ (RSearch.crawl_init ["https://a"] 1)
        (RSearch.crawl_init ["https://a"] 1)
    ∧ ((RSearch.crawl_init ["https://a"] 1).visited.length ≤ 1
      ∧ (RSearch.crawl_init ["https://a"] 1).visited.Nodup
      ∧ (RSearch.crawl_init ["https://a"] 1).fetchLog.Nodup
      ∧ (∀ u ∈ (RSearch.crawl_init ["https://a"] 1).fetchLog,
          u ∈ (RSearch.crawl_init ["https://a"] 1).visited)
      ∧ (∀ p ∈ (RSearch.crawl_init ["https://a"] 1).queue, p.2 ≤ 2)) :=
  ⟨Relation.ReflTransGen.refl,
   by
    have h := claim_C6_crawl_budget ⟨2, 1⟩ ["https://a"] 1
      (RSearch.crawl_init ["https://a"] 1) Relation.ReflTransGen.refl
    exact h⟩

/-- Claim C7 as stated is false: the last-access timestamp is recorded
before the rate-limit sleep (`respect_rate_limits` captures `now` at entry
and inserts that value after waiting), and the 100-499 ms politeness jitter
is added after the wait, so two back-to-back requests to the same host can
be separated by less than 1000 ms of wall clock.  Concretely: worker A
enters the limiter at t=0 on a fresh map (no wait), draws jitter 499 and
issues its request at 549 ms; worker B enters at t=1, sleeps the 999 ms
deficit, draws jitter 100 and issues its request at 1150 ms — 601 ms after
A's. -/
theorem claim_C7_counterexample :
    (100 ≤ 499 ∧ 499 < 500 ∧ 100 ≤ 100 ∧ 100 < 500 ∧ (0 : ℕ) ≤ 1)
    ∧ RSearch.request_time [] "host" 0 499 = 549
    ∧ RSearch.request_time ((RSearch.respect_rate_limits [] "host" 0).2)
        "host" 1 100 = 1150
    ∧ 1150 - 549 < 1000 := by
  refine ⟨by norm_num, ?_, ?_, by norm_num⟩
  · rfl
  · rfl

/-- Claim C7, amended: a worker whose recorded last access to the host was
`elapsed < 1000` ms ago sleeps exactly the deficit `1000 - elapsed` and
never more; with `elapsed ≥ 1000` it does not sleep; the end of its
rate-limit wait comes at least 1000 ms after the recorded last access; and
the map records the worker's (pre-sleep) limiter-entry time.  The ≥ 1000 ms
wall-clock separation of the requests themselves does not hold (see the
counterexample): the recorded timestamp predates the sleep and the jitter
is added after it. -/
theorem claim_C7_rate_limit (timestamps : List (String × ℕ)) (domain : String)
    (now last : ℕ) (hlk : timestamps.lookup domain = some last)
    (hle : last ≤ now) :
    (now - last < 1000 →
      (RSearch.respect_rate_limits timestamps domain now).1
        = 1000 - (now - last))
    ∧ (1000 ≤ now - last →
      (RSearch.respect_rate_limits timestamps domain now).1 = 0)
    ∧ (RSearch.respect_rate_limits timestamps domain now).1
        ≤ 1000 - (now - last)
    ∧ last + 1000 ≤ now + (RSearch.respect_rate_limits timestamps domain now).1
    ∧ (RSearch.respect_rate_limits timestamps domain now).2.lookup domain
        = some now := by
  refine ⟨?_, ?_, ?_, ?_, ?_⟩
  · intro h
    simp [RSearch.respect_rate_limits, hlk, h]
  · intro h
    simp [RSearch.respect_rate_limits, hlk]
    omega
  · simp only [RSearch.respect_rate_limits, hlk]
    split <;> omega
  · simp only [RSearch.respect_rate_limits, hlk]
    by_cases h : now - last < 1000
    · rw [if_pos h]
      omega
    · rw [if_neg h]
      omega
  · simp [RSearch.respect_rate_limits, List.lookup]

/-- Witness for the amended C7: host last accessed at 0, limiter entered at
1: the worker sleeps exactly the 999 ms deficit. -/
theorem claim_C7_witness :
    ([("host", 0)].lookup "host" = some 0 ∧ (0 : ℕ) ≤ 1)
    ∧ ((1 - 0 < 1000 →
        (RSearch.respect_rate_limits [("host", 0)] "host" 1).1 = 1000 - (1 - 0))
      ∧ (1000 ≤ 1 - 0 →
        (RSearch.respect_rate_limits [("host", 0)] "host" 1).1 = 0)
      ∧ (RSearch.respect_rate_limits [("host", 0)] "host" 1).1 ≤ 1000 - (1 - 0)
      ∧ 0 + 1000 ≤ 1 + (RSearch.respect_rate_limits [("host", 0)] "host" 1).1
      ∧ (RSearch.respect_rate_limits [("host", 0)] "host" 1).2.lookup "host"
          = some 1) :=
  ⟨⟨by decide, by decide⟩,
   claim_C7_rate_limit [("host", 0)] "host" 1 0 (by decide) (by decide)⟩
